import Mathlib

/-
Verification of the conbench time-series-assembly and comparison views
(`conbench/app/benchmarks.py` and `conbench/app/compare.py`) against the
natural-language specification.

The Python code is shallowly embedded: every dictionary becomes an
association list kept in insertion order (matching CPython dict
semantics), `defaultdict(list)` lookups become an explicit operation that
inserts an empty bucket on a miss, Python's stable `sorted` becomes a
stable insertion sort, and Python sets become duplicate-free lists kept in
insertion order with an explicit, arbitrary `pop` choice function.
Numeric result fields (`started_at`, `mean`) are modelled as integers:
the code only moves them around and compares them, it never does float
arithmetic on them.
-/

/-- Modelled from the spec: `BMRTBenchmarkResult` is defined in
`conbench/job.py`, which is not part of this excerpt; its fields are taken
from spec section 3 ("DATA MODEL") and from the attribute accesses in
`conbench/app/benchmarks.py`. `mean` is optional ("absent on failed
runs"). -/
structure BMRTBenchmarkResult where
  id : String
  benchmark_name : String
  case_id : String
  case_text_id : String
  started_at : Int
  mean : Option Int
  unit : String
  run_id : String
  hardware_id : String
  hardware_name : String
  ui_hardware_short : String
  context_id : String
deriving DecidableEq

/-- Ordered association-list lookup: returns the value of the first entry
with the given key, like reading a CPython dict. -/
def dictLookup {κ β : Type} [DecidableEq κ] (k : κ) : List (κ × β) → Option β
  | [] => none
  | (k', v) :: rest => if k' = k then some v else dictLookup k rest

/-- Appending `x` to the bucket of key `k` in a `defaultdict(list)`:
the first entry with key `k` gets `x` appended; if no entry exists a new
one is created at the end (CPython dict insertion order). -/
def dictAppend {κ α : Type} [DecidableEq κ] (d : List (κ × List α)) (k : κ) (x : α) :
    List (κ × List α) :=
  match d with
  | [] => [(k, [x])]
  | (k', v) :: rest =>
    if k' = k then (k', v ++ [x]) :: rest else (k', v) :: dictAppend rest k x

/-- CPython dict assignment `d[k] = v`: overwrites in place if the key
exists (keeping its position), else appends a new entry. -/
def dictInsert {κ β : Type} [DecidableEq κ] (d : List (κ × β)) (k : κ) (v : β) :
    List (κ × β) :=
  match d with
  | [] => [(k, v)]
  | (k', v') :: rest =>
    if k' = k then (k', v) :: rest else (k', v') :: dictInsert rest k v

/-- Key list of an association list (CPython `dict.keys()`, in order). -/
def dictKeys {κ β : Type} (d : List (κ × β)) : List κ := d.map Prod.fst

/-- The `defaultdict(list)` grouping loop `for x in xs: d[key x].append(x)`
starting from an empty dict. -/
def group_by_key {κ α : Type} [DecidableEq κ] (key : α → κ) (xs : List α) :
    List (κ × List α) :=
  xs.foldl (fun d x => dictAppend d (key x) x) []

/-- benchmarks.py lines 17-18: `max(results, key=lambda r: r.started_at)`.
CPython `max` scans left to right and replaces the current best only on a
strictly greater key, so the FIRST element attaining the maximum wins.
`max` raises on an empty list; the embedding returns `none` there. -/
def newest_of_many_results : List BMRTBenchmarkResult → Option BMRTBenchmarkResult
  | [] => none
  | x :: xs =>
    some (xs.foldl (fun best r => if best.started_at < r.started_at then r else best) x)

/-- benchmarks.py line 247: `_UNIT_REPLACE_MAP`. -/
def UNIT_REPLACE_MAP : List (String × String) :=
  [("s", "seconds"), ("i/s", "iterations / second")]

/-- benchmarks.py lines 250-256: map short units to longer display labels,
unmapped units pass through unchanged. -/
def maybe_longer_unit (unit : String) : String :=
  match dictLookup unit UNIT_REPLACE_MAP with
  | some v => v
  | none => unit

/-- Modelled from the spec: `bmrt_cache["by_benchmark_name"]` lives in
`conbench/job.py`, which is not part of this excerpt.  Per spec section
4.1 it maps a benchmark name to the ordered collection of results with
that name, and per the source comment at benchmarks.py lines 72-73 (and
the spec's section 9 note on auto-vivifying map lookups) it is a
`defaultdict(list)`. -/
abbrev ByBenchmarkName := List (String × List BMRTBenchmarkResult)

/-- Indexing a `defaultdict(list)` with `d[k]`: on a hit the dict is
unchanged; on a miss an empty bucket is created for `k` (auto-vivification)
and returned.  Returns the bucket together with the possibly-mutated
dict. -/
def defaultdict_get (d : ByBenchmarkName) (k : String) :
    List BMRTBenchmarkResult × ByBenchmarkName :=
  match dictLookup k d with
  | some v => (v, d)
  | none => ([], d ++ [(k, [])])

/-- Rendering outcome of `show_benchmark_cases` (benchmarks.py lines
71-110): either the "benchmark name not known" string or the rendered
cases page with the template parameters that are computed from the
cache. -/
inductive CasesOutput where
  | unknownName (bname : String)
  | page (results_by_case_id : List (String × List BMRTBenchmarkResult))
      (hardware_count_per_case_id : List (String × Nat))
      (context_count_per_case_id : List (String × Nat))
      (last_result_per_case_id : List (String × Option BMRTBenchmarkResult))
      (benchmark_result_count : Nat)
deriving DecidableEq

/-- benchmarks.py lines 71-110, `show_benchmark_cases`.  The existence
probe at line 74 uses `bname not in ...` which does NOT auto-vivify
(see the comment at lines 72-73); the indexing at line 77 then happens
only on a known key, so the cache is returned unchanged on both paths.
`len(set(...))` becomes the length of the deduplicated list. -/
def show_benchmark_cases (cache : ByBenchmarkName) (bname : String) :
    CasesOutput × ByBenchmarkName :=
  match dictLookup bname cache with
  | none => (.unknownName bname, cache)
  | some matching_results =>
    let results_by_case_id := group_by_key (fun r => r.case_id) matching_results
    let hardware_count_per_case_id :=
      results_by_case_id.map
        (fun kv => (kv.1, ((kv.2.map (fun r => r.hardware_id)).dedup).length))
    let context_count_per_case_id :=
      results_by_case_id.map
        (fun kv => (kv.1, ((kv.2.map (fun r => r.context_id)).dedup).length))
    let last_result_per_case_id :=
      results_by_case_id.map (fun kv => (kv.1, newest_of_many_results kv.2))
    (.page results_by_case_id hardware_count_per_case_id context_count_per_case_id
      last_result_per_case_id matching_results.length, cache)

/-- Grouping key of benchmarks.py lines 156-161:
`(hardware_id, context_id, hardware_name)`. -/
abbrev GroupKey := String × String × String

/-- benchmarks.py lines 156-161: the tuple `(hwid, ctxid, hwname)` used as
the `results_by_hardware_and_context` dict key. -/
def groupKey (r : BMRTBenchmarkResult) : GroupKey :=
  (r.hardware_id, r.context_id, r.hardware_name)

/-- benchmarks.py lines 147-161: group the matching results by
`(hardware_id, context_id, hardware_name)` via a `defaultdict(list)`. -/
def results_by_hardware_and_context (matching_results : List BMRTBenchmarkResult) :
    List (GroupKey × List BMRTBenchmarkResult) :=
  group_by_key groupKey matching_results

/-- Stable insertion step for sorting groups by result count descending:
an element is placed before the first element whose count is not strictly
larger, which reproduces the stability of CPython's `sorted`. -/
def insertByCountDesc (x : GroupKey × List BMRTBenchmarkResult) :
    List (GroupKey × List BMRTBenchmarkResult) →
    List (GroupKey × List BMRTBenchmarkResult)
  | [] => [x]
  | y :: ys =>
    if x.2.length < y.2.length then y :: insertByCountDesc x ys else x :: y :: ys

/-- benchmarks.py lines 165-171: `sorted(..., key=lambda item: len(item[1]),
reverse=True)` — stable sort of the groups by result count, descending. -/
def sort_groups_by_count_desc :
    List (GroupKey × List BMRTBenchmarkResult) →
    List (GroupKey × List BMRTBenchmarkResult)
  | [] => []
  | x :: xs => insertByCountDesc x (sort_groups_by_count_desc xs)

/-- benchmarks.py lines 175-179, the accumulation loop:
`results_for_table.extend(results[:3000]); if len(results_for_table) >= 3000: break`. -/
def tableLoop (acc : List BMRTBenchmarkResult) :
    List (GroupKey × List BMRTBenchmarkResult) → List BMRTBenchmarkResult
  | [] => acc
  | (_, results) :: rest =>
    if 3000 ≤ (acc ++ results.take 3000).length then acc ++ results.take 3000
    else tableLoop (acc ++ results.take 3000) rest

/-- benchmarks.py lines 173-179: build the (capped) table row list from the
ranked groups. -/
def results_for_table_of (sortedGroups : List (GroupKey × List BMRTBenchmarkResult)) :
    List BMRTBenchmarkResult :=
  tableLoop [] sortedGroups

/-- benchmarks.py lines 113-117: the `TypeUIPlotInfo` TypedDict. -/
structure TypeUIPlotInfo where
  title : String
  url_to_newest_result : String
  data_for_uplot : List (List Int)
  unit : String
deriving DecidableEq

/-- Modelled from the spec: `flask.url_for("app.benchmark-result", ...)` —
the route itself is registered outside this excerpt; the model only needs
an id-determined URL string (spec section 4.3, item 8: the link targets the
newest result). -/
def url_for_app_benchmark_result (benchmark_result_id : String) : String :=
  "/benchmark-results/" ++ benchmark_result_id

/-- benchmarks.py lines 198-213: the `TypeUIPlotInfo` value built for one
group.  `data_for_uplot` pairs `[r.started_at for r in results]` with
`[float(r.mean) for r in results if r.mean is not None]`; the title uses
`results[0].ui_hardware_short` and `ctxid[:7]`; url and unit come from the
newest result.  The `none` fallbacks are dead code: the caller only passes
groups with at least 3 (hence at least 1) results. -/
def infoForGroup (ctxid : String) (results : List BMRTBenchmarkResult) :
    TypeUIPlotInfo :=
  { title := "hardware: " ++
      (match results.head? with
       | some r => r.ui_hardware_short
       | none => "") ++
      ", context: " ++ ctxid.take 7 ++ ", " ++ toString results.length ++ " results"
    url_to_newest_result :=
      (match newest_of_many_results results with
       | some nr => url_for_app_benchmark_result nr.id
       | none => "")
    data_for_uplot :=
      [results.map (fun r => r.started_at), results.filterMap (fun r => r.mean)]
    unit :=
      (match newest_of_many_results results with
       | some nr => nr.unit
       | none => "") }

/-- benchmarks.py lines 183-213: walk the ranked groups, skip those with
fewer than 3 results, and fill the `infos_for_uplots` dict keyed by
`f"{hwid}_{ctxid}"`. -/
def infos_for_uplots_of (sortedGroups : List (GroupKey × List BMRTBenchmarkResult)) :
    List (String × TypeUIPlotInfo) :=
  sortedGroups.foldl
    (fun d kv =>
      if kv.2.length < 3 then d
      else dictInsert d (kv.1.1 ++ "_" ++ kv.1.2.1) (infoForGroup kv.1.2.1 kv.2))
    []

/-- CPython `set.add` on a set modelled as a duplicate-free list in
insertion order. -/
def pySetAdd (s : List String) (u : String) : List String :=
  if u ∈ s then s else s ++ [u]

/-- benchmarks.py lines 185-196: `units_seen` accumulated over the same
loop that builds the plot infos — only groups with at least 3 results
contribute their results' units. -/
def units_seen_of (sortedGroups : List (GroupKey × List BMRTBenchmarkResult)) :
    List String :=
  sortedGroups.foldl
    (fun s kv =>
      if kv.2.length < 3 then s
      else kv.2.foldl (fun s' r => pySetAdd s' r.unit) s)
    []

/-- benchmarks.py lines 124-133: the bucket for `bname` (obtained by
indexing the defaultdict) filtered down to the requested case id. -/
def matching_of (cache : ByBenchmarkName) (bname caseid : String) :
    List BMRTBenchmarkResult :=
  ((defaultdict_get cache bname).1).filter (fun r => r.case_id == caseid)

/-- benchmarks.py lines 147-171: the per-(hardware, context) groups of the
matching results, ranked by result count descending. -/
def sorted_groups_of (cache : ByBenchmarkName) (bname caseid : String) :
    List (GroupKey × List BMRTBenchmarkResult) :=
  sort_groups_by_count_desc
    (results_by_hardware_and_context (matching_of cache bname caseid))

/-- benchmarks.py lines 185-196: the distinct units observed across the
plotted (≥ 3 results) groups, in first-seen order. -/
def observed_units (cache : ByBenchmarkName) (bname caseid : String) : List String :=
  units_seen_of (sorted_groups_of cache bname caseid)

/-- Rendering outcome of `show_benchmark_results` (benchmarks.py lines
122-244).  `unknownName` mirrors the `except KeyError` arm at lines
126-127; since the cache is a `defaultdict(list)`, indexing never raises
`KeyError` and this arm is dead code (indexing silently inserts an empty
bucket instead).  `keyErrorOnUnitPop` is the uncaught `KeyError` raised by
`units_seen.pop()` at line 224 when `units_seen` is empty.  `page` carries
whether the more-than-one-unit warning at lines 218-221 fired, the table
rows, the plot infos, the chosen y-axis unit, and the matching result
count. -/
inductive ResultsOutput where
  | unknownName (bname : String)
  | noResults (bname caseid : String)
  | keyErrorOnUnitPop
  | page (warned : Bool) (table : List BMRTBenchmarkResult)
      (infosForUplots : List (String × TypeUIPlotInfo))
      (y_unit_for_all_plots : String) (matching_benchmark_result_count : Nat)
deriving DecidableEq

/-- Plot infos of an output (empty unless a page was rendered). -/
def ResultsOutput.infos : ResultsOutput → List (String × TypeUIPlotInfo)
  | .page _ _ infosForUplots _ _ => infosForUplots
  | _ => []

/-- Table rows of an output (empty unless a page was rendered). -/
def ResultsOutput.tableOf : ResultsOutput → List BMRTBenchmarkResult
  | .page _ table _ _ _ => table
  | _ => []

/-- The y-axis unit of a rendered page, if one was rendered. -/
def ResultsOutput.yUnit : ResultsOutput → Option String
  | .page _ _ _ y_unit_for_all_plots _ => some y_unit_for_all_plots
  | _ => none

/-- Whether the mixed-units warning fired, if a page was rendered. -/
def ResultsOutput.warnedFlag : ResultsOutput → Option Bool
  | .page warned _ _ _ _ => some warned
  | _ => none

/-- benchmarks.py lines 122-244, `show_benchmark_results`.  The function is
parametrised by `pick`, the arbitrary element choice made by CPython's
`set.pop()` at line 224 (hash-order dependent, hence not fixed by the
source); a faithful `pick` satisfies `validPick` below.  The `try/except
KeyError` of lines 124-127 never takes the except arm because the cache is
a `defaultdict(list)`: the indexing inserts an empty bucket for an unknown
name instead of raising, so an unknown name flows into the "no results
found" return at lines 144-145 with the cache mutated. -/
def show_benchmark_results (pick : List String → Option String)
    (cache : ByBenchmarkName) (bname caseid : String) :
    ResultsOutput × ByBenchmarkName :=
  let cache' := (defaultdict_get cache bname).2
  if (matching_of cache bname caseid).isEmpty then
    (.noResults bname caseid, cache')
  else if (observed_units cache bname caseid).isEmpty then
    (.keyErrorOnUnitPop, cache')
  else
    match pick (observed_units cache bname caseid) with
    | none => (.keyErrorOnUnitPop, cache')
    | some u =>
      (.page ((observed_units cache bname caseid).length != 1)
        (results_for_table_of (sorted_groups_of cache bname caseid))
        (infos_for_uplots_of (sorted_groups_of cache bname caseid))
        (maybe_longer_unit u)
        (matching_of cache bname caseid).length, cache')

/-- A faithful model of CPython `set.pop()`: on a non-empty set it returns
some element of the set (which one is hash-order dependent). -/
def validPick (pick : List String → Option String) : Prop :=
  ∀ s : List String, s ≠ [] → ∃ u, pick s = some u ∧ u ∈ s

/-- One possible `set.pop()` behaviour: return the first-inserted element. -/
def pickFirst (s : List String) : Option String := s.head?

/-- Another possible `set.pop()` behaviour: return the last-inserted
element. -/
def pickLast (s : List String) : Option String := s.getLast?

/-- One side of a per-case comparison entry: the comparison dictionaries
produced by the API layer carry, for each present side, at least the
`benchmark_result_id` used at compare.py line 231. -/
structure CompareSide where
  benchmark_result_id : String
deriving DecidableEq

/-- A per-case comparison entry as handled by `Compare._compare`
(compare.py lines 226-236): a side that is missing ("one-sided" pairing)
is `none`; `compare_benchmarks_url` is (over)written by the loop. -/
structure ComparisonEntry where
  baseline : Option CompareSide
  contender : Option CompareSide
  compare_benchmarks_url : Option String
deriving DecidableEq

/-- compare.py lines 296-300: the URL of the
`/compare/benchmark-results/<compare_ids>/` route, as produced by
`flask.url_for("app.compare-benchmark-results", compare_ids=...)`. -/
def url_for_compare_benchmark_results (compare_ids : String) : String :=
  "/compare/benchmark-results/" ++ compare_ids ++ "/"

/-- compare.py lines 228-234, the body of the per-entry mutation loop:
when both sides are present (truthy dicts) the compare link is built from
the two benchmark result ids, otherwise it is set to `None`. -/
def setCompareUrl (c : ComparisonEntry) : ComparisonEntry :=
  match c.baseline, c.contender with
  | some b, some k =>
    { c with
        compare_benchmarks_url :=
          some (url_for_compare_benchmark_results
            (b.benchmark_result_id ++ "..." ++ k.benchmark_result_id)) }
  | _, _ => { c with compare_benchmarks_url := none }

/-- compare.py lines 213-236, `Compare._compare`, parametrised by the
abstract `get_comparisons` resolver (its two concrete implementations go
through the API layer, outside this excerpt).  Python's `if errmsg:`
checks truthiness, so only a non-`None`, non-empty error message aborts;
otherwise every entry gets its compare link set and no error is
returned. -/
def Compare_compare
    (get_comparisons : String → String → List ComparisonEntry × Option String)
    (baseline_id contender_id : String) :
    List ComparisonEntry × Option String :=
  match get_comparisons baseline_id contender_id with
  | (comparisons, some errmsg) =>
    if errmsg = "" then (comparisons.map setCompareUrl, none)
    else ([], some errmsg)
  | (comparisons, none) => (comparisons.map setCompareUrl, none)

/-- Finds the first occurrence of the literal `"..."` in a character list
and splits there, like `"..." in s` combined with `s.split("...", 1)` at
compare.py lines 169-175.  Returns `none` when the separator does not
occur. -/
def splitDots : List Char → Option (List Char × List Char)
  | [] => none
  | c :: rest =>
    if c = '.' ∧ rest.take 2 = ['.', '.'] then some ([], rest.drop 2)
    else
      match splitDots rest with
      | some p => some (c :: p.1, p.2)
      | none => none

/-- Outcome of the `compare_ids` shape validation (compare.py lines
169-187). -/
inductive ParseOutcome where
  | validationError (msg : String)
  | parsed (baseline_id contender_id : String)
deriving DecidableEq

/-- compare.py lines 169-187: reject a token without the `"..."`
separator, then split at the first occurrence and reject an empty baseline
or contender (`if not baseline_id:` — an empty string is falsy).  All
three rejections happen before any entity resolution. -/
def parse_compare_ids (compare_ids : String) : ParseOutcome :=
  match splitDots compare_ids.data with
  | none =>
    .validationError "Got unexpected URL path pattern. Expected: <id>...<id>"
  | some p =>
    if p.1 = [] then
      .validationError
        "No baseline ID was provided. Expected format: <baseline_id>...<contender_id>"
    else if p.2 = [] then
      .validationError
        "No contender ID was provided. Expected format: <baseline-id>...<contender-id>"
    else .parsed (String.mk p.1) (String.mk p.2)

/-- Rendering outcome of `Compare.get` (compare.py lines 148-211).
`errorPage` records the message and the `alert_level` argument of
`error_page` (`none` when the call site omits it, as the validation
rejections do; `some "info"` for the two informational pages). -/
inductive CompareGetOutcome where
  | errorPage (msg : String) (alert_level : Option String)
  | page (comparisons : List ComparisonEntry) (baseline_id contender_id : String)
deriving DecidableEq

/-- compare.py lines 189-211: the part of `Compare.get` that runs after
the compare token has been parsed — resolution and matching through
`_compare`, the dedicated "comparison yielded 0 benchmark results"
informational page for an empty matched set (line 200-205, reached only
when resolution succeeded), and the rendered page otherwise.  Note
line 193 checks `error_string is not None`. -/
def Compare_get_after_parse
    (get_comparisons : String → String → List ComparisonEntry × Option String)
    (baseline_id contender_id : String) : CompareGetOutcome :=
  match Compare_compare get_comparisons baseline_id contender_id with
  | (_, some error_string) =>
    .errorPage ("cannot perform comparison: " ++ error_string) (some "info")
  | (comparison_results, none) =>
    if comparison_results.length = 0 then
      .errorPage "comparison yielded 0 benchmark results" (some "info")
    else .page comparison_results baseline_id contender_id

/-- compare.py lines 148-211, `Compare.get`: validate the compare token
shape, then resolve and compare. -/
def Compare_get
    (get_comparisons : String → String → List ComparisonEntry × Option String)
    (compare_ids : String) : CompareGetOutcome :=
  match parse_compare_ids compare_ids with
  | .validationError msg => .errorPage msg none
  | .parsed baseline_id contender_id =>
    Compare_get_after_parse get_comparisons baseline_id contender_id

/-- Fixture: a benchmark result with every field populated; the other
fixtures override individual fields. -/
def baseResult : BMRTBenchmarkResult :=
  { id := "r0", benchmark_name := "bn", case_id := "c", case_text_id := "ct"
    started_at := 0, mean := some 1, unit := "s", run_id := "run0"
    hardware_id := "h1", hardware_name := "hw one", ui_hardware_short := "hs"
    context_id := "c1" }

/-- Fixture cache holding one benchmark name with a single result. -/
def cache1 : ByBenchmarkName := [("bn", [baseResult])]

/-- Fixture for the table cap: 2000 results on hardware `h1`. -/
def ra2 : BMRTBenchmarkResult := { baseResult with id := "a2" }

/-- Fixture for the table cap: 2000 results on hardware `h2`. -/
def rb2 : BMRTBenchmarkResult := { baseResult with id := "b2", hardware_id := "h2" }

/-- Fixture cache for the table cap: one bucket of 4000 results split over
two (hardware, context) groups of 2000 each. -/
def cache2 : ByBenchmarkName :=
  [("bn", List.replicate 2000 ra2 ++ List.replicate 2000 rb2)]

/-- Fixture: three results of one series arriving in the cache bucket in
non-chronological order (started_at 3, 1, 2). -/
def r31 : BMRTBenchmarkResult := { baseResult with id := "r31", started_at := 3 }

/-- Second result of the order fixture. -/
def r32 : BMRTBenchmarkResult := { baseResult with id := "r32", started_at := 1 }

/-- Third result of the order fixture. -/
def r33 : BMRTBenchmarkResult := { baseResult with id := "r33", started_at := 2 }

/-- Fixture cache whose single series is not time-sorted. -/
def cache3 : ByBenchmarkName := [("bn", [r31, r32, r33])]

/-- Fixture: two results sharing the maximal `started_at`, with ids
`"a"` and `"b"`. -/
def ra4 : BMRTBenchmarkResult := { baseResult with id := "a", started_at := 5 }

/-- Tie partner of `ra4` with the larger id. -/
def rb4 : BMRTBenchmarkResult := { baseResult with id := "b", started_at := 5 }

/-- Fixture: results with unit "a" (twice) and unit "b" in one series. -/
def u51 : BMRTBenchmarkResult := { baseResult with id := "u51", unit := "a" }

/-- Second unit fixture result. -/
def u52 : BMRTBenchmarkResult :=
  { baseResult with id := "u52", unit := "a", started_at := 1 }

/-- Third unit fixture result, carrying the lexicographically larger
unit. -/
def u53 : BMRTBenchmarkResult :=
  { baseResult with id := "u53", unit := "b", started_at := 2 }

/-- Fixture cache with mixed units in one plotted series. -/
def cache5 : ByBenchmarkName := [("bn", [u51, u52, u53])]

/-- Fixture: first result of a series in which one `mean` is absent. -/
def r61 : BMRTBenchmarkResult :=
  { baseResult with id := "r61", started_at := 1, mean := some 10 }

/-- Second result of the absent-mean fixture: `mean` is absent. -/
def r62 : BMRTBenchmarkResult :=
  { baseResult with id := "r62", started_at := 2, mean := none }

/-- Third result of the absent-mean fixture. -/
def r63 : BMRTBenchmarkResult :=
  { baseResult with id := "r63", started_at := 3, mean := some 12 }

/-- Fixture cache for the absent-mean series. -/
def cache6 : ByBenchmarkName := [("bn", [r61, r62, r63])]

/-- The series of one `(hardware_id, context_id, hardware_name)` group, in
cache-bucket order: the matching results filtered to the group key. -/
def seriesResults (cache : ByBenchmarkName) (bname caseid hwid ctxid hwname : String) :
    List BMRTBenchmarkResult :=
  (matching_of cache bname caseid).filter
    (fun r => decide (groupKey r = (hwid, ctxid, hwname)))

/-- Fixture resolver that reports zero matched pairs with no error. -/
def emptyResolver : String → String → List ComparisonEntry × Option String :=
  fun _ _ => ([], none)

/-- Fixture comparison entry with both sides present. -/
def entryBoth : ComparisonEntry :=
  { baseline := some { benchmark_result_id := "base1" }
    contender := some { benchmark_result_id := "cont1" }
    compare_benchmarks_url := some "stale" }

/-- Fixture comparison entry with only the baseline side present. -/
def entryOneSided : ComparisonEntry :=
  { baseline := some { benchmark_result_id := "base2" }
    contender := none
    compare_benchmarks_url := some "stale" }

/-- Fixture resolver returning one full and one one-sided entry. -/
def twoEntryResolver : String → String → List ComparisonEntry × Option String :=
  fun _ _ => ([entryBoth, entryOneSided], none)

/-- Helper: taking the first-inserted element is a legitimate `set.pop`
behaviour. -/
theorem validPick_pickFirst : validPick pickFirst := by
  intro s hs
  cases s with
  | nil => exact absurd rfl hs
  | cons a t => exact ⟨a, rfl, List.mem_cons_self a t⟩

/-- Helper: taking the last-inserted element is a legitimate `set.pop`
behaviour. -/
theorem validPick_pickLast : validPick pickLast := by
  intro s hs
  exact ⟨s.getLast hs, List.getLast?_eq_getLast s hs, List.getLast_mem hs⟩

/-- C1: looking up an unknown benchmark name behaves as claimed in
`show_benchmark_cases` (no entry created, name reported unknown), but in
`show_benchmark_results` the `defaultdict` indexing auto-vivifies: the
unknown key gains an empty bucket and the handler answers with the
"no results found" message instead of reporting the name unknown. -/
theorem C1_unknown_name_lookup_autovivifies :
    show_benchmark_cases cache1 "nope" = (CasesOutput.unknownName "nope", cache1) ∧
    (show_benchmark_results pickFirst cache1 "nope" "c").1 =
      ResultsOutput.noResults "nope" "c" ∧
    (show_benchmark_results pickFirst cache1 "nope" "c").2 =
      cache1 ++ [("nope", [])] ∧
    dictKeys ((show_benchmark_results pickFirst cache1 "nope" "c").2) ≠
      dictKeys cache1 := by
  refine ⟨rfl, rfl, rfl, ?_⟩
  decide

/-- C10: a cache that holds exactly one result for the requested benchmark
name and case id makes every per-(hardware, context) group smaller than
the 3-point plotting threshold, so `units_seen` stays empty and
`units_seen.pop()` at benchmarks.py line 224 raises an uncaught
`KeyError` instead of rendering the page — whatever element `set.pop`
would otherwise choose. -/
theorem C10_unit_pop_raises_keyerror (pick : List String → Option String) :
    show_benchmark_results pick cache1 "bn" "c" =
      (ResultsOutput.keyErrorOnUnitPop, cache1) := rfl

/-- C3 counterexample: with the bucket holding timestamps 3, 1, 2 the
emitted `data_for_uplot` timestamp array is `[3, 1, 2]`, which is not
ordered ascending — no within-series sort is applied. -/
theorem C3_points_not_sorted :
    dictLookup "h1_c1" ((show_benchmark_results pickFirst cache3 "bn" "c").1.infos) =
      some (infoForGroup "c1" [r31, r32, r33]) ∧
    (infoForGroup "c1" [r31, r32, r33]).data_for_uplot.head? = some [3, 1, 2] ∧
    ¬ List.Pairwise (fun a b => a ≤ b) ([3, 1, 2] : List Int) := by
  refine ⟨rfl, rfl, ?_⟩
  decide

/-- C4 counterexample: two results share the maximal `started_at` but the
selection depends on iteration order — each of the two orderings of the
same two results yields a different winner, so ties are broken by list
position, not by `id`. -/
theorem C4_tie_depends_on_order :
    newest_of_many_results [ra4, rb4] = some ra4 ∧
    newest_of_many_results [rb4, ra4] = some rb4 ∧
    ra4.started_at = rb4.started_at ∧ ra4.id = "a" ∧ rb4.id = "b" ∧
    ra4 ≠ rb4 := by
  refine ⟨rfl, rfl, rfl, rfl, rfl, ?_⟩
  decide

/-- C5 counterexample: with observed units `{"a", "b"}` the legitimate
`set.pop` behaviour `pickLast` makes the page use unit `"b"` even though
`"a"` is the lexicographically smallest observed unit — the representative
unit is arbitrary, not the lexicographic minimum. -/
theorem C5_unit_not_lex_smallest :
    validPick pickLast ∧
    (show_benchmark_results pickLast cache5 "bn" "c").1.yUnit = some "b" ∧
    observed_units cache5 "bn" "c" = ["a", "b"] ∧
    ("a" : String).data < ("b" : String).data ∧
    maybe_longer_unit "a" = "a" ∧ ("b" : String) ≠ "a" := by
  refine ⟨validPick_pickLast, rfl, rfl, ?_, rfl, ?_⟩
  · decide
  · decide

/-- C6 counterexample: a series whose middle result has no `mean` produces
a timestamp array of length 3 next to a mean array of length 2 — the two
arrays are not parallel, and index alignment is lost. -/
theorem C6_arrays_not_parallel :
    dictLookup "h1_c1" ((show_benchmark_results pickFirst cache6 "bn" "c").1.infos) =
      some (infoForGroup "c1" [r61, r62, r63]) ∧
    (infoForGroup "c1" [r61, r62, r63]).data_for_uplot.map List.length = [3, 2] ∧
    (3 : Nat) ≠ 2 := by
  refine ⟨rfl, rfl, ?_⟩
  decide

/-- Helper: filtering a replicated list with a predicate its element
satisfies is the identity. -/
theorem filter_replicate_pos {α : Type} (p : α → Bool) (x : α) (hx : p x = true) :
    ∀ n, (List.replicate n x).filter p = List.replicate n x := by
  intro n
  induction n with
  | zero => rfl
  | succ n ih => simp [List.replicate_succ, List.filter_cons, hx, ih]

/-- Helper: the grouping fold over copies of one result whose key already
heads the accumulator just extends that bucket. -/
theorem groupFold_same (x : BMRTBenchmarkResult) (k : GroupKey) (hk : groupKey x = k) :
    ∀ (n : Nat) (v : List BMRTBenchmarkResult),
      (List.replicate n x).foldl (fun d y => dictAppend d (groupKey y) y) [(k, v)] =
        [(k, v ++ List.replicate n x)] := by
  intro n
  induction n with
  | zero => intro v; simp
  | succ n ih =>
    intro v
    rw [List.replicate_succ, List.foldl_cons]
    have hstep : dictAppend [(k, v)] (groupKey x) x = [(k, v ++ [x])] := by
      simp [dictAppend, hk]
    rw [hstep, ih]
    simp [List.replicate_succ]

/-- Helper: the grouping fold over copies of one result whose key matches
the second of two accumulator entries extends that second bucket. -/
theorem groupFold_two (y : BMRTBenchmarkResult) (k1 k2 : GroupKey)
    (v1 : List BMRTBenchmarkResult) (hk : groupKey y = k2) (hne : k2 ≠ k1) :
    ∀ (n : Nat) (v : List BMRTBenchmarkResult),
      (List.replicate n y).foldl (fun d z => dictAppend d (groupKey z) z)
          [(k1, v1), (k2, v)] =
        [(k1, v1), (k2, v ++ List.replicate n y)] := by
  intro n
  induction n with
  | zero => intro v; simp
  | succ n ih =>
    intro v
    rw [List.replicate_succ, List.foldl_cons]
    have hstep : dictAppend [(k1, v1), (k2, v)] (groupKey y) y =
        [(k1, v1), (k2, v ++ [y])] := by
      simp [dictAppend, hk, hne, (Ne.symm hne)]
    rw [hstep, ih]
    simp [List.replicate_succ]

/-- Helper: grouping a non-empty replicated list from the empty dict
yields a single bucket. -/
theorem groupFold_nil (n : Nat) (hn : n ≠ 0) (x : BMRTBenchmarkResult) :
    (List.replicate n x).foldl (fun d y => dictAppend d (groupKey y) y) [] =
      [(groupKey x, List.replicate n x)] := by
  obtain ⟨m, rfl⟩ := Nat.exists_eq_succ_of_ne_zero hn
  rw [List.replicate_succ, List.foldl_cons]
  have hstep : dictAppend ([] : List (GroupKey × List BMRTBenchmarkResult))
      (groupKey x) x = [(groupKey x, [x])] := rfl
  rw [hstep, groupFold_same x (groupKey x) rfl m [x]]
  simp [List.replicate_succ]

/-- Helper: grouping a non-empty replicated list of a second key after one
existing bucket appends a second bucket. -/
theorem groupFold_other (n : Nat) (hn : n ≠ 0) (y : BMRTBenchmarkResult)
    (k1 : GroupKey) (v1 : List BMRTBenchmarkResult) (hne : groupKey y ≠ k1) :
    (List.replicate n y).foldl (fun d z => dictAppend d (groupKey z) z) [(k1, v1)] =
      [(k1, v1), (groupKey y, List.replicate n y)] := by
  obtain ⟨m, rfl⟩ := Nat.exists_eq_succ_of_ne_zero hn
  rw [List.replicate_succ, List.foldl_cons]
  have hstep : dictAppend [(k1, v1)] (groupKey y) y = [(k1, v1), (groupKey y, [y])] := by
    simp [dictAppend, (Ne.symm hne)]
  rw [hstep, groupFold_two y k1 (groupKey y) v1 rfl hne m [y]]
  simp [List.replicate_succ]

/-- Helper: the grouping of the 4000-result fixture bucket has exactly the
two expected 2000-result groups in first-occurrence order. -/
theorem groupsOfCache2 :
    results_by_hardware_and_context
        (List.replicate 2000 ra2 ++ List.replicate 2000 rb2) =
      [(groupKey ra2, List.replicate 2000 ra2),
       (groupKey rb2, List.replicate 2000 rb2)] := by
  unfold results_by_hardware_and_context group_by_key
  rw [List.foldl_append, groupFold_nil 2000 (by norm_num) ra2,
    groupFold_other 2000 (by norm_num) rb2 (groupKey ra2) (List.replicate 2000 ra2)
      (by decide)]

/-- Helper: the matching results of the 4000-result fixture are the whole
bucket. -/
theorem matchingOfCache2 :
    matching_of cache2 "bn" "c" =
      List.replicate 2000 ra2 ++ List.replicate 2000 rb2 := by
  show (List.replicate 2000 ra2 ++ List.replicate 2000 rb2).filter
      (fun r => r.case_id == "c") = _
  rw [List.filter_append, filter_replicate_pos _ _ (by decide),
    filter_replicate_pos _ _ (by decide)]

/-- Helper: the ranked groups of the 4000-result fixture (equal counts, so
the stable sort keeps first-occurrence order). -/
theorem sortedGroupsOfCache2 :
    sorted_groups_of cache2 "bn" "c" =
      [(groupKey ra2, List.replicate 2000 ra2),
       (groupKey rb2, List.replicate 2000 rb2)] := by
  unfold sorted_groups_of
  rw [matchingOfCache2, groupsOfCache2]
  simp only [sort_groups_by_count_desc, insertByCountDesc, List.length_replicate,
    lt_self_iff_false, ite_false]

/-- Helper: adding the same unit twice to a Python set is the same as
adding it once. -/
theorem pySetAdd_idem (s : List String) (u : String) :
    pySetAdd (pySetAdd s u) u = pySetAdd s u := by
  unfold pySetAdd
  by_cases h : u ∈ s
  · simp [h]
  · simp [h]

/-- Helper: folding `set.add` of one fixed unit over a non-empty
replicated list adds that unit once. -/
theorem pySetAdd_fold_replicate (x : BMRTBenchmarkResult) :
    ∀ (n : Nat) (s : List String), n ≠ 0 →
      (List.replicate n x).foldl (fun s' r => pySetAdd s' r.unit) s =
        pySetAdd s x.unit := by
  intro n
  induction n with
  | zero => intro s h; exact absurd rfl h
  | succ n ih =>
    intro s _
    rw [List.replicate_succ, List.foldl_cons]
    cases Nat.eq_zero_or_pos n with
    | inl h0 => rw [h0]; rfl
    | inr hpos => rw [ih (pySetAdd s x.unit) (Nat.pos_iff_ne_zero.mp hpos), pySetAdd_idem]

/-- Helper: the units observed on the 4000-result fixture are exactly
`["s"]`. -/
theorem unitsOfCache2 : observed_units cache2 "bn" "c" = ["s"] := by
  unfold observed_units
  rw [sortedGroupsOfCache2]
  unfold units_seen_of
  rw [List.foldl_cons, List.foldl_cons, List.foldl_nil]
  have h3a : ¬ (List.replicate 2000 ra2).length < 3 := by
    rw [List.length_replicate]; norm_num
  have h3b : ¬ (List.replicate 2000 rb2).length < 3 := by
    rw [List.length_replicate]; norm_num
  rw [if_neg h3a, if_neg h3b,
    pySetAdd_fold_replicate ra2 2000 [] (by norm_num),
    pySetAdd_fold_replicate rb2 2000 (pySetAdd [] ra2.unit) (by norm_num)]
  rfl

/-- Helper: the table rows assembled from the two 2000-result groups are
all 4000 results. -/
theorem tableOfCache2 :
    results_for_table_of (sorted_groups_of cache2 "bn" "c") =
      List.replicate 2000 ra2 ++ List.replicate 2000 rb2 := by
  rw [sortedGroupsOfCache2]
  unfold results_for_table_of tableLoop
  have htake : (List.replicate 2000 ra2).take 3000 = List.replicate 2000 ra2 :=
    List.take_of_length_le (by rw [List.length_replicate]; norm_num)
  have htake2 : (List.replicate 2000 rb2).take 3000 = List.replicate 2000 rb2 :=
    List.take_of_length_le (by rw [List.length_replicate]; norm_num)
  rw [htake]
  have hc1 : ¬ 3000 ≤ ([] ++ List.replicate 2000 ra2 : List BMRTBenchmarkResult).length := by
    rw [List.nil_append, List.length_replicate]
    norm_num
  rw [if_neg hc1]
  unfold tableLoop
  rw [htake2]
  have hc2 : (3000 : Nat) ≤
      (([] ++ List.replicate 2000 ra2) ++ List.replicate 2000 rb2).length := by
    rw [List.nil_append, List.length_append, List.length_replicate, List.length_replicate]
    norm_num
  rw [if_pos hc2]
  rw [List.nil_append]

/-- Helper: projection of the table out of a rendered page paired with a
cache. -/
theorem fst_tableOf_page (w : Bool) (t : List BMRTBenchmarkResult)
    (i : List (String × TypeUIPlotInfo)) (y : String) (n : Nat)
    (c : ByBenchmarkName) :
    ((ResultsOutput.page w t i y n, c) : ResultsOutput × ByBenchmarkName).1.tableOf
      = t := rfl

/-- Helper: when the matching results are non-empty, the observed units
are non-empty and `pick` returns an element, `show_benchmark_results`
renders the page built from the ranked groups. -/
theorem show_page_eq (pick : List String → Option String)
    (cache : ByBenchmarkName) (bname caseid : String)
    (hm : (matching_of cache bname caseid).isEmpty = false)
    (hu : (observed_units cache bname caseid).isEmpty = false)
    (u : String) (hp : pick (observed_units cache bname caseid) = some u) :
    show_benchmark_results pick cache bname caseid =
      (.page ((observed_units cache bname caseid).length != 1)
        (results_for_table_of (sorted_groups_of cache bname caseid))
        (infos_for_uplots_of (sorted_groups_of cache bname caseid))
        (maybe_longer_unit u)
        (matching_of cache bname caseid).length,
       (defaultdict_get cache bname).2) := by
  unfold show_benchmark_results
  simp only [hm, hu, hp, Bool.false_eq_true, if_false]

/-- C2 counterexample: a bucket of 4000 results split over two
(hardware, context) groups of 2000 each produces a rendered table of 4000
rows — more than the claimed 3000-row cap, because each series is only
truncated at 3000 individually. -/
theorem C2_table_exceeds_cap :
    ((show_benchmark_results pickFirst cache2 "bn" "c").1.tableOf).length = 4000 ∧
    3000 < 4000 := by
  constructor
  · have hm : (matching_of cache2 "bn" "c").isEmpty = false := by
      rw [matchingOfCache2]
      rfl
    have hu : (observed_units cache2 "bn" "c").isEmpty = false := by
      rw [unitsOfCache2]
      rfl
    have hpick : pickFirst (observed_units cache2 "bn" "c") = some "s" := by
      rw [unitsOfCache2]
      rfl
    rw [show_page_eq pickFirst cache2 "bn" "c" hm hu "s" hpick, fst_tableOf_page]
    rw [tableOfCache2, List.length_append, List.length_replicate,
      List.length_replicate]
  · norm_num

/-- Helper: the table accumulation loop, started from fewer than 3000
rows, never reaches 6000 rows: each step appends at most 3000 rows and
stops as soon as 3000 is reached. -/
theorem tableLoop_length_le :
    ∀ (gs : List (GroupKey × List BMRTBenchmarkResult))
      (acc : List BMRTBenchmarkResult),
      acc.length ≤ 2999 → (tableLoop acc gs).length ≤ 5999 := by
  intro gs
  induction gs with
  | nil =>
    intro acc h
    unfold tableLoop
    omega
  | cons kv rest ih =>
    intro acc h
    obtain ⟨k, results⟩ := kv
    unfold tableLoop
    have hlen : (acc ++ results.take 3000).length ≤ 5999 := by
      rw [List.length_append, List.length_take]
      omega
    by_cases hc : 3000 ≤ (acc ++ results.take 3000).length
    · rw [if_pos hc]
      exact hlen
    · rw [if_neg hc]
      exact ih (acc ++ results.take 3000) (by omega)

/-- C2 (amended): the table built from the ranked series never reaches
6000 rows — each series's contribution is truncated at 3000 rows
individually and no further series is started once the accumulated total
has reached 3000, so the total is bounded by 2999 + 3000 = 5999 (but, as
the counterexample shows, it can exceed 3000). -/
theorem C2_table_at_most_5999
    (sortedGroups : List (GroupKey × List BMRTBenchmarkResult)) :
    (results_for_table_of sortedGroups).length ≤ 5999 :=
  tableLoop_length_le sortedGroups [] (by norm_num)

/-- Helper: the fold implementing `max(results, key=lambda r: r.started_at)`
returns the first element attaining the maximal `started_at`: the returned
element splits the list so that everything before it is strictly older and
nothing anywhere is newer. -/
theorem foldMax_first_maximal :
    ∀ (xs : List BMRTBenchmarkResult) (x : BMRTBenchmarkResult),
      ∃ (m : BMRTBenchmarkResult) (l1 l2 : List BMRTBenchmarkResult),
        xs.foldl (fun best r => if best.started_at < r.started_at then r else best) x
          = m ∧
        x :: xs = l1 ++ m :: l2 ∧
        (∀ r ∈ l1, r.started_at < m.started_at) ∧
        (∀ r ∈ x :: xs, r.started_at ≤ m.started_at) := by
  intro xs
  induction xs with
  | nil =>
    intro x
    refine ⟨x, [], [], rfl, rfl, by simp, ?_⟩
    intro r hr
    rw [List.mem_singleton] at hr
    rw [hr]
  | cons y ys ih =>
    intro x
    by_cases hxy : x.started_at < y.started_at
    · obtain ⟨m, l1, l2, hfold, hsplit, hlt, hle⟩ := ih y
      have hym : y.started_at ≤ m.started_at := hle y (List.mem_cons_self y ys)
      refine ⟨m, x :: l1, l2, ?_, ?_, ?_, ?_⟩
      · rw [List.foldl_cons, if_pos hxy]
        exact hfold
      · rw [List.cons_append, ← hsplit]
      · intro r hr
        rcases List.mem_cons.mp hr with h | h
        · rw [h]
          exact lt_of_lt_of_le hxy hym
        · exact hlt r h
      · intro r hr
        rcases List.mem_cons.mp hr with h | h
        · rw [h]
          exact le_of_lt (lt_of_lt_of_le hxy hym)
        · exact hle r h
    · obtain ⟨m, l1, l2, hfold, hsplit, hlt, hle⟩ := ih x
      have hyx : y.started_at ≤ x.started_at := not_lt.mp hxy
      cases l1 with
      | nil =>
        rw [List.nil_append] at hsplit
        injection hsplit with hm hl2
        refine ⟨x, [], y :: ys, ?_, rfl, by simp, ?_⟩
        · rw [List.foldl_cons, if_neg hxy, hfold, ← hm]
        · intro r hr
          rcases List.mem_cons.mp hr with h | h
          · rw [h]
          · rcases List.mem_cons.mp h with h2 | h2
            · rw [h2]
              exact hyx
            · have := hle r (List.mem_cons_of_mem x h2)
              rw [← hm] at this
              exact this
      | cons a t =>
        rw [List.cons_append] at hsplit
        injection hsplit with ha hys
        have hxm : x.started_at < m.started_at := by
          have := hlt a (List.mem_cons_self a t)
          rw [← ha] at this
          exact this
        refine ⟨m, x :: y :: t, l2, ?_, ?_, ?_, ?_⟩
        · rw [List.foldl_cons, if_neg hxy]
          exact hfold
        · rw [List.cons_append, List.cons_append, ← hys]
        · intro r hr
          rcases List.mem_cons.mp hr with h | h
          · rw [h]
            exact hxm
          · rcases List.mem_cons.mp h with h2 | h2
            · rw [h2]
              exact lt_of_le_of_lt hyx hxm
            · exact hlt r (List.mem_cons_of_mem a h2)
        · intro r hr
          rcases List.mem_cons.mp hr with h | h
          · rw [h]
            exact le_of_lt hxm
          · rcases List.mem_cons.mp h with h2 | h2
            · rw [h2]
              exact le_of_lt (lt_of_le_of_lt hyx hxm)
            · have hrmem : r ∈ x :: ys := by
                rw [hys] at h2 ⊢
                exact List.mem_cons_of_mem x h2
              exact hle r hrmem

/-- C4 (amended): on a non-empty list, `newest_of_many_results` returns a
result with the maximal `started_at`, and among results sharing that
maximum it returns the FIRST one in the list's iteration order — every
element before the returned one is strictly older.  Ties are therefore
broken by list position, never by `id`. -/
theorem C4_newest_is_first_maximal (x : BMRTBenchmarkResult)
    (xs : List BMRTBenchmarkResult) :
    ∃ m l1 l2,
      newest_of_many_results (x :: xs) = some m ∧
      x :: xs = l1 ++ m :: l2 ∧
      (∀ r ∈ l1, r.started_at < m.started_at) ∧
      (∀ r ∈ x :: xs, r.started_at ≤ m.started_at) := by
  obtain ⟨m, l1, l2, hfold, hsplit, hlt, hle⟩ := foldMax_first_maximal xs x
  refine ⟨m, l1, l2, ?_, hsplit, hlt, hle⟩
  rw [newest_of_many_results, hfold]

/-- Helper: looking up a key after a `defaultdict` append — the appended
key's bucket grows by the appended element (an empty bucket is created
first on a miss), every other key is untouched. -/
theorem dictLookup_dictAppend {κ α : Type} [DecidableEq κ]
    (d : List (κ × List α)) (k0 : κ) (x : α) (k : κ) :
    dictLookup k (dictAppend d k0 x) =
      if k = k0 then some (((dictLookup k0 d).getD []) ++ [x])
      else dictLookup k d := by
  induction d with
  | nil =>
    by_cases h : k = k0
    · rw [h]
      simp [dictAppend, dictLookup]
    · simp [dictAppend, dictLookup, h, (Ne.symm h : ¬ k0 = k)]
  | cons hd tl ih =>
    obtain ⟨k', v⟩ := hd
    by_cases h1 : k' = k0
    · rw [h1]
      by_cases h2 : k = k0
      · rw [h2]
        simp [dictAppend, dictLookup]
      · simp [dictAppend, dictLookup, h2, (Ne.symm h2 : ¬ k0 = k)]
    · by_cases h2 : k' = k
      · have h3 : ¬ k = k0 := by
          intro hh
          exact h1 (h2.trans hh)
        rw [h2]
        simp [dictAppend, dictLookup, h1, h3]
      · simp [dictAppend, dictLookup, h1, h2, ih]

/-- Helper: a key present after a `defaultdict` append was present before
or is the appended key. -/
theorem mem_dictKeys_dictAppend {κ α : Type} [DecidableEq κ]
    (d : List (κ × List α)) (k0 : κ) (x : α) (k : κ)
    (h : k ∈ dictKeys (dictAppend d k0 x)) : k ∈ dictKeys d ∨ k = k0 := by
  induction d with
  | nil =>
    right
    rw [dictAppend] at h
    simp only [dictKeys, List.map_cons, List.map_nil] at h
    rcases List.mem_cons.mp h with h2 | h2
    · exact h2
    · simp at h2
  | cons hd tl ih =>
    obtain ⟨k', v⟩ := hd
    rw [dictAppend] at h
    by_cases h1 : k' = k0
    · left
      rw [if_pos h1] at h
      simp only [dictKeys, List.map_cons] at h ⊢
      exact h
    · rw [if_neg h1] at h
      simp only [dictKeys, List.map_cons] at h ⊢
      rcases List.mem_cons.mp h with h2 | h2
      · left
        rw [h2]
        exact List.mem_cons_self _ _
      · rcases ih h2 with h3 | h3
        · exact Or.inl (List.mem_cons_of_mem _ h3)
        · exact Or.inr h3

/-- Helper: a `defaultdict` append preserves key uniqueness. -/
theorem nodup_dictKeys_dictAppend {κ α : Type} [DecidableEq κ]
    (d : List (κ × List α)) (k0 : κ) (x : α)
    (h : (dictKeys d).Nodup) : (dictKeys (dictAppend d k0 x)).Nodup := by
  induction d with
  | nil =>
    rw [dictAppend]
    simp [dictKeys]
  | cons hd tl ih =>
    obtain ⟨k', v⟩ := hd
    simp only [dictKeys, List.map_cons, List.nodup_cons] at h
    obtain ⟨hnotin, hnd⟩ := h
    rw [dictAppend]
    by_cases h1 : k' = k0
    · rw [if_pos h1]
      simp only [dictKeys, List.map_cons, List.nodup_cons]
      exact ⟨hnotin, hnd⟩
    · rw [if_neg h1]
      simp only [dictKeys, List.map_cons, List.nodup_cons]
      refine ⟨?_, ih hnd⟩
      intro hmem
      rcases mem_dictKeys_dictAppend tl k0 x k' hmem with h2 | h2
      · exact hnotin h2
      · exact h1 h2

/-- Helper: in a dict with unique keys, membership determines the
lookup. -/
theorem dictLookup_of_mem_nodup {κ β : Type} [DecidableEq κ]
    (d : List (κ × β)) (k : κ) (v : β)
    (hnd : (dictKeys d).Nodup) (hm : (k, v) ∈ d) : dictLookup k d = some v := by
  induction d with
  | nil => simp at hm
  | cons hd tl ih =>
    obtain ⟨k', v'⟩ := hd
    simp only [dictKeys, List.map_cons, List.nodup_cons] at hnd
    obtain ⟨hnotin, hnd2⟩ := hnd
    rcases List.mem_cons.mp hm with h | h
    · cases h
      simp [dictLookup]
    · by_cases h2 : k' = k
      · exfalso
        apply hnotin
        rw [h2]
        exact List.mem_map_of_mem Prod.fst h
      · simp only [dictLookup, if_neg h2]
        exact ih hnd2 h

/-- Helper: what the grouping fold holds at each key — the starting bucket
(if any) extended by exactly the processed elements with that key, in
order; a key with no starting bucket and no matching element stays
absent. -/
theorem group_fold_lookup {κ α : Type} [DecidableEq κ] (key : α → κ) :
    ∀ (l : List α) (d : List (κ × List α)) (k : κ),
      dictLookup k (List.foldl (fun acc x => dictAppend acc (key x) x) d l) =
        if ((dictLookup k d).isSome || l.any (fun x => decide (key x = k))) = true
        then some ((dictLookup k d).getD [] ++
          l.filter (fun x => decide (key x = k)))
        else none := by
  intro l
  induction l with
  | nil =>
    intro d k
    cases h : dictLookup k d <;> simp [h]
  | cons x xs ih =>
    intro d k
    rw [List.foldl_cons, ih (dictAppend d (key x) x) k,
      dictLookup_dictAppend d (key x) x k]
    by_cases hk : k = key x
    · have hk2 : key x = k := hk.symm
      have hdec : decide (key x = k) = true := decide_eq_true hk2
      rw [if_pos hk]
      simp only [List.any_cons, List.filter_cons, hdec, Bool.true_or,
        Bool.or_true, Option.isSome_some, Option.getD_some, if_pos rfl,
        ite_true]
      cases h : dictLookup (key x) d with
      | none =>
        rw [hk, h]
        simp
      | some v =>
        rw [hk, h]
        simp
    · have hk2 : ¬ key x = k := fun hh => hk hh.symm
      have hdec : decide (key x = k) = false := decide_eq_false hk2
      rw [if_neg hk]
      simp only [List.any_cons, List.filter_cons, hdec, Bool.false_or]
      simp

/-- Helper: keys stay unique throughout a grouping fold. -/
theorem nodup_group_fold {κ α : Type} [DecidableEq κ] (key : α → κ) :
    ∀ (l : List α) (d : List (κ × List α)), (dictKeys d).Nodup →
      (dictKeys (List.foldl (fun acc x => dictAppend acc (key x) x) d l)).Nodup := by
  intro l
  induction l with
  | nil => intro d h; exact h
  | cons x xs ih =>
    intro d h
    rw [List.foldl_cons]
    exact ih (dictAppend d (key x) x) (nodup_dictKeys_dictAppend d (key x) x h)

/-- Helper: every bucket produced by `group_by_key` is exactly the filter
of the input by its key, in input order (the stability of the
`defaultdict(list)` grouping loop). -/
theorem mem_group_by_key_eq_filter {κ α : Type} [DecidableEq κ]
    (key : α → κ) (l : List α) (k : κ) (v : List α)
    (hm : (k, v) ∈ group_by_key key l) :
    v = l.filter (fun x => decide (key x = k)) := by
  have hnd : (dictKeys (group_by_key key l)).Nodup := by
    have : (dictKeys ([] : List (κ × List α))).Nodup := by simp [dictKeys]
    exact nodup_group_fold key l [] this
  have hlook : dictLookup k (group_by_key key l) = some v :=
    dictLookup_of_mem_nodup (group_by_key key l) k v hnd hm
  rw [group_by_key, group_fold_lookup key l [] k] at hlook
  by_cases hc : (List.any l fun x => decide (key x = k)) = true
  · rw [if_pos] at hlook
    · simp only [dictLookup, Option.getD_none, List.nil_append] at hlook
      exact (Option.some.injEq .. ▸ hlook).symm
    · simp [dictLookup, hc]
  · rw [if_neg] at hlook
    · exact absurd hlook (by simp)
    · simp [dictLookup, hc]

/-- Helper: inserting into the count-ranked list adds no new elements. -/
theorem mem_insertByCountDesc (x p : GroupKey × List BMRTBenchmarkResult) :
    ∀ l, p ∈ insertByCountDesc x l → p = x ∨ p ∈ l := by
  intro l
  induction l with
  | nil =>
    intro h
    rw [insertByCountDesc] at h
    rcases List.mem_cons.mp h with h2 | h2
    · exact Or.inl h2
    · simp at h2
  | cons y ys ih =>
    intro h
    rw [insertByCountDesc] at h
    by_cases hc : x.2.length < y.2.length
    · rw [if_pos hc] at h
      rcases List.mem_cons.mp h with h2 | h2
      · exact Or.inr (h2 ▸ List.mem_cons_self y ys)
      · rcases ih h2 with h3 | h3
        · exact Or.inl h3
        · exact Or.inr (List.mem_cons_of_mem y h3)
    · rw [if_neg hc] at h
      rcases List.mem_cons.mp h with h2 | h2
      · exact Or.inl h2
      · exact Or.inr h2

/-- Helper: the count-ranked sort is a selection of the original groups —
every ranked entry is one of the input groups. -/
theorem mem_sort_groups (p : GroupKey × List BMRTBenchmarkResult) :
    ∀ l, p ∈ sort_groups_by_count_desc l → p ∈ l := by
  intro l
  induction l with
  | nil => intro h; simp [sort_groups_by_count_desc] at h
  | cons x xs ih =>
    intro h
    rw [sort_groups_by_count_desc] at h
    rcases mem_insertByCountDesc x p _ h with h2 | h2
    · exact h2 ▸ List.mem_cons_self x xs
    · exact List.mem_cons_of_mem x (ih h2)

/-- Helper: dict assignment adds at most the assigned pair. -/
theorem mem_dictInsert {κ β : Type} [DecidableEq κ]
    (d : List (κ × β)) (k : κ) (v : β) (p : κ × β)
    (h : p ∈ dictInsert d k v) : p = (k, v) ∨ p ∈ d := by
  induction d with
  | nil =>
    rw [dictInsert] at h
    rcases List.mem_cons.mp h with h2 | h2
    · exact Or.inl h2
    · simp at h2
  | cons hd tl ih =>
    obtain ⟨k', v'⟩ := hd
    rw [dictInsert] at h
    by_cases hc : k' = k
    · rw [if_pos hc] at h
      rcases List.mem_cons.mp h with h2 | h2
      · exact Or.inl (h2.trans (by rw [hc]))
      · exact Or.inr (List.mem_cons_of_mem _ h2)
    · rw [if_neg hc] at h
      rcases List.mem_cons.mp h with h2 | h2
      · exact Or.inr (h2 ▸ List.mem_cons_self _ _)
      · rcases ih h2 with h3 | h3
        · exact Or.inl h3
        · exact Or.inr (List.mem_cons_of_mem _ h3)

/-- Helper: every entry of the plot-infos dict comes from a ranked group
with at least 3 results, keyed and valued as the loop builds it. -/
theorem mem_infos_foldl :
    ∀ (l : List (GroupKey × List BMRTBenchmarkResult))
      (d : List (String × TypeUIPlotInfo)) (p : String × TypeUIPlotInfo),
      p ∈ l.foldl (fun d kv =>
          if kv.2.length < 3 then d
          else dictInsert d (kv.1.1 ++ "_" ++ kv.1.2.1)
            (infoForGroup kv.1.2.1 kv.2)) d →
      p ∈ d ∨ ∃ k rs, (k, rs) ∈ l ∧ ¬ rs.length < 3 ∧
        p = (k.1 ++ "_" ++ k.2.1, infoForGroup k.2.1 rs) := by
  intro l
  induction l with
  | nil =>
    intro d p h
    exact Or.inl h
  | cons kv rest ih =>
    intro d p h
    rw [List.foldl_cons] at h
    rcases ih _ p h with h2 | h2
    · by_cases hc : kv.2.length < 3
      · rw [if_pos hc] at h2
        exact Or.inl h2
      · rw [if_neg hc] at h2
        rcases mem_dictInsert _ _ _ p h2 with h3 | h3
        · exact Or.inr ⟨kv.1, kv.2, List.mem_cons_self kv rest, hc, h3⟩
        · exact Or.inl h3
    · obtain ⟨k, rs, hmem, h3, h4⟩ := h2
      exact Or.inr ⟨k, rs, List.mem_cons_of_mem kv hmem, h3, h4⟩

/-- Helper: the rendered output's plot infos are either absent (no page)
or exactly the infos built from the ranked groups. -/
theorem show_infos_cases (pick : List String → Option String)
    (cache : ByBenchmarkName) (bname caseid : String) :
    ((show_benchmark_results pick cache bname caseid).1).infos = [] ∨
    ((show_benchmark_results pick cache bname caseid).1).infos =
      infos_for_uplots_of (sorted_groups_of cache bname caseid) := by
  unfold show_benchmark_results
  by_cases hm : (matching_of cache bname caseid).isEmpty
  · left
    simp [hm, ResultsOutput.infos]
  · by_cases hu : (observed_units cache bname caseid).isEmpty
    · left
      simp [hm, hu, ResultsOutput.infos]
    · cases hp : pick (observed_units cache bname caseid) with
      | none =>
        left
        simp [hm, hu, hp, ResultsOutput.infos]
      | some u =>
        right
        simp [hm, hu, hp, ResultsOutput.infos]

/-- Helper: every emitted plot info belongs to a well-formed series: its
key is `hwid ++ "_" ++ ctxid`, its series holds at least 3 results, and
its value is the info computed from that series in bucket order. -/
theorem mem_infos_char (pick : List String → Option String)
    (cache : ByBenchmarkName) (bname caseid s : String) (info : TypeUIPlotInfo)
    (h : (s, info) ∈ ((show_benchmark_results pick cache bname caseid).1).infos) :
    ∃ hwid ctxid hwname,
      s = hwid ++ "_" ++ ctxid ∧
      3 ≤ (seriesResults cache bname caseid hwid ctxid hwname).length ∧
      info = infoForGroup ctxid (seriesResults cache bname caseid hwid ctxid hwname) := by
  rcases show_infos_cases pick cache bname caseid with hc | hc
  · rw [hc] at h
    simp at h
  · rw [hc] at h
    unfold infos_for_uplots_of at h
    rcases mem_infos_foldl _ [] (s, info) h with h2 | h2
    · simp at h2
    · obtain ⟨k, rs, hmem, h3, h4⟩ := h2
      have hmem2 : (k, rs) ∈
          results_by_hardware_and_context (matching_of cache bname caseid) := by
        unfold sorted_groups_of at hmem
        exact mem_sort_groups _ _ hmem
      have hrs : rs = (matching_of cache bname caseid).filter
          (fun r => decide (groupKey r = k)) := by
        unfold results_by_hardware_and_context at hmem2
        exact mem_group_by_key_eq_filter groupKey _ k rs hmem2
      obtain ⟨hwid, ctxid, hwname⟩ := k
      injection h4 with hs hinfo
      refine ⟨hwid, ctxid, hwname, hs, ?_, ?_⟩
      · have : seriesResults cache bname caseid hwid ctxid hwname = rs := hrs.symm
        rw [this]
        omega
      · have : seriesResults cache bname caseid hwid ctxid hwname = rs := hrs.symm
        rw [this]
        exact hinfo

/-- C3 (amended): every series emitted for plotting carries its points in
the order the results occur in the cache bucket — the timestamp array is
exactly the bucket filtered to this series, mapped to `started_at`, with
no sort applied; the sequence is therefore ascending only when the bucket
happens to be. -/
theorem C3_series_points_in_bucket_order (pick : List String → Option String)
    (cache : ByBenchmarkName) (bname caseid s : String) (info : TypeUIPlotInfo)
    (h : (s, info) ∈ ((show_benchmark_results pick cache bname caseid).1).infos) :
    ∃ hwid ctxid hwname,
      s = hwid ++ "_" ++ ctxid ∧
      3 ≤ (seriesResults cache bname caseid hwid ctxid hwname).length ∧
      info.data_for_uplot.head? =
        some ((seriesResults cache bname caseid hwid ctxid hwname).map
          (fun r => r.started_at)) := by
  obtain ⟨hwid, ctxid, hwname, hs, hlen, hinfo⟩ :=
    mem_infos_char pick cache bname caseid s info h
  refine ⟨hwid, ctxid, hwname, hs, hlen, ?_⟩
  rw [hinfo]
  rfl

/-- Witness for C3: on the fixture whose bucket holds timestamps 3, 1, 2,
the emitted series is exactly that bucket order. -/
theorem C3_series_points_witness :
    ∃ hwid ctxid hwname,
      "h1_c1" = hwid ++ "_" ++ ctxid ∧
      3 ≤ (seriesResults cache3 "bn" "c" hwid ctxid hwname).length ∧
      (infoForGroup "c1" [r31, r32, r33]).data_for_uplot.head? =
        some ((seriesResults cache3 "bn" "c" hwid ctxid hwname).map
          (fun r => r.started_at)) :=
  C3_series_points_in_bucket_order pickFirst cache3 "bn" "c" "h1_c1"
    (infoForGroup "c1" [r31, r32, r33]) (by decide)

/-- Helper: a `filterMap` has full length exactly when the function is
defined on every element. -/
theorem length_filterMap_eq_iff {α β : Type} (f : α → Option β) :
    ∀ l : List α,
      ((l.filterMap f).length = l.length ↔ ∀ a ∈ l, (f a).isSome = true) := by
  intro l
  induction l with
  | nil => simp
  | cons a t ih =>
    rw [List.filterMap_cons]
    cases hfa : f a with
    | none =>
      have hle := List.length_filterMap_le f t
      simp only [List.length_cons, List.forall_mem_cons, hfa]
      constructor
      · intro h
        omega
      · intro h
        exact absurd h.1 (by simp)
    | some b =>
      simp only [List.length_cons, List.forall_mem_cons, hfa]
      constructor
      · intro h
        exact ⟨rfl, ih.mp (by omega)⟩
      · intro h
        have := ih.mpr h.2
        omega

/-- C6 (amended): every emitted series carries exactly two arrays — one
`started_at` entry per result of the series, and one mean entry per
result whose mean is present (absent means are silently skipped); the two
arrays have equal length, and hence aligned indices, exactly when every
result of the series has a mean. -/
theorem C6_data_for_uplot_shape (pick : List String → Option String)
    (cache : ByBenchmarkName) (bname caseid s : String) (info : TypeUIPlotInfo)
    (h : (s, info) ∈ ((show_benchmark_results pick cache bname caseid).1).infos) :
    ∃ hwid ctxid hwname,
      s = hwid ++ "_" ++ ctxid ∧
      info.data_for_uplot =
        [(seriesResults cache bname caseid hwid ctxid hwname).map
          (fun r => r.started_at),
         (seriesResults cache bname caseid hwid ctxid hwname).filterMap
          (fun r => r.mean)] ∧
      (((seriesResults cache bname caseid hwid ctxid hwname).filterMap
            (fun r => r.mean)).length =
          ((seriesResults cache bname caseid hwid ctxid hwname).map
            (fun r => r.started_at)).length ↔
        ∀ r ∈ seriesResults cache bname caseid hwid ctxid hwname,
          (r.mean).isSome = true) := by
  obtain ⟨hwid, ctxid, hwname, hs, _, hinfo⟩ :=
    mem_infos_char pick cache bname caseid s info h
  refine ⟨hwid, ctxid, hwname, hs, ?_, ?_⟩
  · rw [hinfo]
    rfl
  · rw [List.length_map]
    exact length_filterMap_eq_iff _ _

/-- Witness for C6: on the fixture with an absent mean the emitted arrays
are the 3-entry timestamp array and the 2-entry mean array, and the
equal-length condition fails. -/
theorem C6_data_for_uplot_witness :
    ∃ hwid ctxid hwname,
      "h1_c1" = hwid ++ "_" ++ ctxid ∧
      (infoForGroup "c1" [r61, r62, r63]).data_for_uplot =
        [(seriesResults cache6 "bn" "c" hwid ctxid hwname).map
          (fun r => r.started_at),
         (seriesResults cache6 "bn" "c" hwid ctxid hwname).filterMap
          (fun r => r.mean)] ∧
      (((seriesResults cache6 "bn" "c" hwid ctxid hwname).filterMap
            (fun r => r.mean)).length =
          ((seriesResults cache6 "bn" "c" hwid ctxid hwname).map
            (fun r => r.started_at)).length ↔
        ∀ r ∈ seriesResults cache6 "bn" "c" hwid ctxid hwname,
          (r.mean).isSome = true) :=
  C6_data_for_uplot_shape pickFirst cache6 "bn" "c" "h1_c1"
    (infoForGroup "c1" [r61, r62, r63]) (by decide)

/-- C5 (amended): whenever a page is rendered, the mixed-units warning
fires exactly when the number of distinct observed units differs from one
(including more than one), processing continues, and the y-axis unit is
the display substitution of an arbitrary element of the observed units
(whichever one `set.pop()` returns) — no lexicographic rule is applied. -/
theorem C5_warning_and_arbitrary_unit (pick : List String → Option String)
    (cache : ByBenchmarkName) (bname caseid u : String)
    (hv : validPick pick)
    (hu : ((show_benchmark_results pick cache bname caseid).1).yUnit = some u) :
    ((show_benchmark_results pick cache bname caseid).1).warnedFlag =
      some ((observed_units cache bname caseid).length != 1) ∧
    ∃ v, v ∈ observed_units cache bname caseid ∧ u = maybe_longer_unit v := by
  unfold show_benchmark_results at hu ⊢
  by_cases hm : (matching_of cache bname caseid).isEmpty
  · simp [hm, ResultsOutput.yUnit] at hu
  · by_cases hue : (observed_units cache bname caseid).isEmpty
    · simp [hm, hue, ResultsOutput.yUnit] at hu
    · have hne : observed_units cache bname caseid ≠ [] := by
        intro hh
        rw [hh] at hue
        exact hue rfl
      obtain ⟨w, hw, hwmem⟩ := hv _ hne
      simp only [hm, hue, hw, ResultsOutput.yUnit, Bool.false_eq_true, if_false,
        ite_false] at hu
      simp [hm, hue, hw, ResultsOutput.warnedFlag]
      refine ⟨w, hwmem, ?_⟩
      simp at hu
      exact hu.symm

/-- Witness for C5: with observed units `["a", "b"]` and the
first-element `set.pop` behaviour the page warns (2 distinct units) and
uses the unit "a", an element of the observed units. -/
theorem C5_warning_and_arbitrary_unit_witness :
    ((show_benchmark_results pickFirst cache5 "bn" "c").1).warnedFlag =
      some ((observed_units cache5 "bn" "c").length != 1) ∧
    ∃ v, v ∈ observed_units cache5 "bn" "c" ∧ "a" = maybe_longer_unit v :=
  C5_warning_and_arbitrary_unit pickFirst cache5 "bn" "c" "a"
    validPick_pickFirst (by decide)

/-- Helper: a list whose first two elements are known splits as such. -/
theorem take_two_shape {α : Type} (l : List α) (a b : α) (h : l.take 2 = [a, b]) :
    l = a :: b :: l.drop 2 := by
  cases l with
  | nil => simp at h
  | cons x t =>
    cases t with
    | nil => simp at h
    | cons y t2 =>
      simp only [List.take, List.cons.injEq] at h
      obtain ⟨h1, h2, _⟩ := h
      rw [h1, h2]
      rfl

/-- Helper: a successful split reassembles the input around the
three-dot separator. -/
theorem splitDots_eq_append :
    ∀ (l a b : List Char), splitDots l = some (a, b) →
      l = a ++ '.' :: '.' :: '.' :: b := by
  intro l
  induction l with
  | nil =>
    intro a b h
    simp [splitDots] at h
  | cons c rest ih =>
    intro a b h
    rw [splitDots] at h
    by_cases hcond : c = '.' ∧ rest.take 2 = ['.', '.']
    · rw [if_pos hcond] at h
      injection h with h2
      injection h2 with ha hb
      rw [← ha, ← hb, hcond.1, List.nil_append]
      conv_lhs => rw [take_two_shape rest '.' '.' hcond.2]
    · rw [if_neg hcond] at h
      cases hsr : splitDots rest with
      | none =>
        rw [hsr] at h
        simp at h
      | some p =>
        obtain ⟨p1, p2⟩ := p
        rw [hsr] at h
        injection h with h2
        injection h2 with ha hb
        rw [← ha, ← hb, List.cons_append]
        congr 1
        exact ih p1 p2 hsr

/-- Helper: the split happens at the FIRST occurrence of the three-dot
separator — any other decomposition has a prefix at least as long. -/
theorem splitDots_first :
    ∀ (l a b : List Char), splitDots l = some (a, b) →
      ∀ u v : List Char, l = u ++ '.' :: '.' :: '.' :: v → a.length ≤ u.length := by
  intro l
  induction l with
  | nil =>
    intro a b h
    simp [splitDots] at h
  | cons c rest ih =>
    intro a b h u v hl
    rw [splitDots] at h
    by_cases hcond : c = '.' ∧ rest.take 2 = ['.', '.']
    · rw [if_pos hcond] at h
      injection h with h2
      injection h2 with ha hb
      rw [← ha]
      simp
    · rw [if_neg hcond] at h
      cases u with
      | nil =>
        rw [List.nil_append] at hl
        injection hl with hc hrest
        exact absurd ⟨hc, by rw [hrest]; rfl⟩ hcond
      | cons uc ut =>
        rw [List.cons_append] at hl
        injection hl with hc hrest
        cases hsr : splitDots rest with
        | none =>
          rw [hsr] at h
          simp at h
        | some p =>
          obtain ⟨p1, p2⟩ := p
          rw [hsr] at h
          injection h with h2
          injection h2 with ha hb
          rw [← ha]
          simp only [List.length_cons]
          have := ih p1 p2 hsr ut v hrest
          omega

/-- Helper: a failed split means the separator occurs nowhere. -/
theorem splitDots_none :
    ∀ (l : List Char), splitDots l = none →
      ∀ u v : List Char, l ≠ u ++ '.' :: '.' :: '.' :: v := by
  intro l
  induction l with
  | nil =>
    intro _ u v hl
    cases u <;> simp at hl
  | cons c rest ih =>
    intro h u v hl
    rw [splitDots] at h
    by_cases hcond : c = '.' ∧ rest.take 2 = ['.', '.']
    · rw [if_pos hcond] at h
      simp at h
    · rw [if_neg hcond] at h
      cases hsr : splitDots rest with
      | some p =>
        rw [hsr] at h
        simp at h
      | none =>
        cases u with
        | nil =>
          rw [List.nil_append] at hl
          injection hl with hc hrest
          exact absurd ⟨hc, by rw [hrest]; rfl⟩ hcond
        | cons uc ut =>
          rw [List.cons_append] at hl
          injection hl with hc hrest
          exact ih hsr ut v hrest

/-- Helper: strings with equal character data are equal. -/
theorem string_data_inj {a b : String} (h : a.data = b.data) : a = b := by
  cases a with
  | mk da =>
    cases b with
    | mk db =>
      have h2 : da = db := h
      rw [h2]

/-- Helper: string concatenation concatenates the character data. -/
theorem string_data_append (a b : String) : (a ++ b).data = a.data ++ b.data := rfl

/-- Helper: a successful split on a string's data reassembles the string
around the literal `"..."`. -/
theorem splitDots_string_decomp (s : String) (a b : List Char)
    (h : splitDots s.data = some (a, b)) :
    s = String.mk a ++ "..." ++ String.mk b := by
  apply string_data_inj
  have h1 := splitDots_eq_append s.data a b h
  rw [string_data_append, string_data_append, h1, List.append_assoc]
  rfl

/-- Helper: a string decomposition around `"..."` read at the data
level. -/
theorem string_decomp_data (s u v : String) (h : s = u ++ "..." ++ v) :
    s.data = u.data ++ '.' :: '.' :: '.' :: v.data := by
  rw [h, string_data_append, string_data_append, List.append_assoc]
  rfl

/-- C7 (confirmed): the compare token is split at the FIRST occurrence of
the literal `"..."`; exactly the violating inputs — no separator, empty
baseline token, empty contender token (baseline/contender being the
first-occurrence split) — produce a validation-error page, and they do so
independently of the resolver, i.e. before any entity resolution or store
access; every other input proceeds to the resolution flow with the two
non-empty tokens. -/
theorem C7_parse_compare_token (s : String) :
    (∀ b c : String, parse_compare_ids s = ParseOutcome.parsed b c →
       b ≠ "" ∧ c ≠ "" ∧ s = b ++ "..." ++ c ∧
       (∀ u v : String, s = u ++ "..." ++ v → b.length ≤ u.length) ∧
       (∀ gc, Compare_get gc s = Compare_get_after_parse gc b c)) ∧
    ((∃ m, parse_compare_ids s = ParseOutcome.validationError m) ↔
      ((¬ ∃ u v : String, s = u ++ "..." ++ v) ∨
       (∃ b c : String, s = b ++ "..." ++ c ∧
         (∀ u v : String, s = u ++ "..." ++ v → b.length ≤ u.length) ∧
         (b = "" ∨ c = "")))) ∧
    (∀ m, parse_compare_ids s = ParseOutcome.validationError m →
      ∀ gc gc2, Compare_get gc s = Compare_get gc2 s ∧
        Compare_get gc s = CompareGetOutcome.errorPage m none) := by
  refine ⟨?_, ?_, ?_⟩
  · intro b c hp
    have hp0 := hp
    unfold parse_compare_ids at hp
    cases hsd : splitDots s.data with
    | none =>
      rw [hsd] at hp
      simp at hp
    | some p =>
      obtain ⟨p1, p2⟩ := p
      rw [hsd] at hp
      dsimp only at hp
      by_cases h1 : p1 = []
      · rw [if_pos h1] at hp
        simp at hp
      · rw [if_neg h1] at hp
        by_cases h2 : p2 = []
        · rw [if_pos h2] at hp
          simp at hp
        · rw [if_neg h2] at hp
          injection hp with hb hc
          refine ⟨?_, ?_, ?_, ?_, ?_⟩
          · rw [← hb]
            intro hh
            exact h1 (congrArg String.data hh)
          · rw [← hc]
            intro hh
            exact h2 (congrArg String.data hh)
          · rw [← hb, ← hc]
            exact splitDots_string_decomp s p1 p2 hsd
          · intro u v huv
            rw [← hb]
            exact splitDots_first s.data p1 p2 hsd u.data v.data
              (string_decomp_data s u v huv)
          · intro gc
            unfold Compare_get
            rw [hp0]
  · constructor
    · rintro ⟨m, hm⟩
      unfold parse_compare_ids at hm
      cases hsd : splitDots s.data with
      | none =>
        left
        rintro ⟨u, v, huv⟩
        exact splitDots_none s.data hsd u.data v.data
          (string_decomp_data s u v huv)
      | some p =>
        obtain ⟨p1, p2⟩ := p
        right
        rw [hsd] at hm
        dsimp only at hm
        refine ⟨String.mk p1, String.mk p2, splitDots_string_decomp s p1 p2 hsd,
          ?_, ?_⟩
        · intro u v huv
          exact splitDots_first s.data p1 p2 hsd u.data v.data
            (string_decomp_data s u v huv)
        · by_cases h1 : p1 = []
          · left
            rw [h1]
          · rw [if_neg h1] at hm
            by_cases h2 : p2 = []
            · right
              rw [h2]
            · rw [if_neg h2] at hm
              simp at hm
    · rintro (hno | ⟨b, c, hbc, hmin, hempty⟩)
      · cases hsd : splitDots s.data with
        | some p =>
          obtain ⟨p1, p2⟩ := p
          exact absurd
            ⟨String.mk p1, String.mk p2, splitDots_string_decomp s p1 p2 hsd⟩ hno
        | none =>
          refine ⟨"Got unexpected URL path pattern. Expected: <id>...<id>", ?_⟩
          unfold parse_compare_ids
          rw [hsd]
      · cases hsd : splitDots s.data with
        | none =>
          exact absurd (string_decomp_data s b c hbc)
            (splitDots_none s.data hsd b.data c.data)
        | some p =>
          obtain ⟨p1, p2⟩ := p
          have hd1 : s.data = p1 ++ '.' :: '.' :: '.' :: p2 :=
            splitDots_eq_append s.data p1 p2 hsd
          have hd2 : s.data = b.data ++ '.' :: '.' :: '.' :: c.data :=
            string_decomp_data s b c hbc
          have hle1 : p1.length ≤ b.data.length :=
            splitDots_first s.data p1 p2 hsd b.data c.data hd2
          have hle2 : b.length ≤ (String.mk p1).length :=
            hmin (String.mk p1) (String.mk p2) (splitDots_string_decomp s p1 p2 hsd)
          have hlen : p1.length = b.data.length := le_antisymm hle1 hle2
          have heq := List.append_inj (hd1.symm.trans hd2) hlen
          obtain ⟨heqb, heqtail⟩ := heq
          injection heqtail with _ heqtail2
          injection heqtail2 with _ heqtail3
          injection heqtail3 with _ heqc
          rcases hempty with he | he
          · have hp1 : p1 = [] := by
              rw [heqb, he]
            refine ⟨"No baseline ID was provided. Expected format: <baseline_id>...<contender_id>", ?_⟩
            unfold parse_compare_ids
            rw [hsd]
            dsimp only
            rw [if_pos hp1]
          · by_cases hp1 : p1 = []
            · refine ⟨"No baseline ID was provided. Expected format: <baseline_id>...<contender_id>", ?_⟩
              unfold parse_compare_ids
              rw [hsd]
              dsimp only
              rw [if_pos hp1]
            · have hp2 : p2 = [] := by
                rw [heqc, he]
              refine ⟨"No contender ID was provided. Expected format: <baseline-id>...<contender-id>", ?_⟩
              unfold parse_compare_ids
              rw [hsd]
              dsimp only
              rw [if_neg hp1, if_pos hp2]
  · intro m hm gc gc2
    constructor
    · unfold Compare_get
      rw [hm]
    · unfold Compare_get
      rw [hm]

/-- Witness for C7: the well-formed token `"a...b"` parses into the two
non-empty tokens around the first separator occurrence. -/
theorem C7_parse_compare_token_witness :
    ("a" : String) ≠ "" ∧ ("b" : String) ≠ "" ∧
    ("a...b" : String) = "a" ++ "..." ++ "b" ∧
    (∀ u v : String, ("a...b" : String) = u ++ "..." ++ v →
      ("a" : String).length ≤ u.length) ∧
    (∀ gc, Compare_get gc "a...b" = Compare_get_after_parse gc "a" "b") :=
  (C7_parse_compare_token "a...b").1 "a" "b" (by decide)

/-- Helper: the dedicated empty-comparison message is not any
resolution-failure message. -/
theorem empty_msg_ne_cannot (e : String) :
    ("comparison yielded 0 benchmark results" : String) ≠
      "cannot perform comparison: " ++ e := by
  intro h
  have h2 := congrArg (fun t : String => t.data.take 2) h
  simp only [string_data_append, List.take_append_eq_append_take] at h2
  have hlen : 2 - ("cannot perform comparison: " : String).data.length = 0 := by
    decide
  rw [hlen, List.take_zero, List.append_nil] at h2
  exact absurd h2 (by decide)

/-- C8 (confirmed): when the compare token parses and resolution succeeds
with zero matched pairs, `Compare.get` renders the dedicated
"comparison yielded 0 benchmark results" page at the informational alert
level — an outcome distinct from every validation-error page (those carry
no alert level), from every resolution-failure page (those carry the
"cannot perform comparison: ..." message), and from every rendered
comparison page. -/
theorem C8_empty_comparison_distinct
    (gc : String → String → List ComparisonEntry × Option String)
    (s b c : String)
    (hp : parse_compare_ids s = ParseOutcome.parsed b c)
    (hg : gc b c = ([], none)) :
    Compare_get gc s =
      CompareGetOutcome.errorPage "comparison yielded 0 benchmark results"
        (some "info") ∧
    (∀ m, CompareGetOutcome.errorPage "comparison yielded 0 benchmark results"
        (some "info") ≠ CompareGetOutcome.errorPage m none) ∧
    (∀ e, CompareGetOutcome.errorPage "comparison yielded 0 benchmark results"
        (some "info") ≠
      CompareGetOutcome.errorPage ("cannot perform comparison: " ++ e)
        (some "info")) ∧
    (∀ ps bid cid, CompareGetOutcome.errorPage
        "comparison yielded 0 benchmark results" (some "info") ≠
      CompareGetOutcome.page ps bid cid) := by
  refine ⟨?_, ?_, ?_, ?_⟩
  · unfold Compare_get
    rw [hp]
    dsimp only
    unfold Compare_get_after_parse Compare_compare
    rw [hg]
    rfl
  · intro m hcontra
    injection hcontra with _ h2
    simp at h2
  · intro e hcontra
    injection hcontra with h1 _
    exact empty_msg_ne_cannot e h1
  · intro ps bid cid hcontra
    simp at hcontra

/-- Witness for C8: the token `"a...b"` with a resolver reporting zero
matched pairs yields exactly the dedicated informational page. -/
theorem C8_empty_comparison_distinct_witness :
    Compare_get emptyResolver "a...b" =
      CompareGetOutcome.errorPage "comparison yielded 0 benchmark results"
        (some "info") ∧
    (∀ m, CompareGetOutcome.errorPage "comparison yielded 0 benchmark results"
        (some "info") ≠ CompareGetOutcome.errorPage m none) ∧
    (∀ e, CompareGetOutcome.errorPage "comparison yielded 0 benchmark results"
        (some "info") ≠
      CompareGetOutcome.errorPage ("cannot perform comparison: " ++ e)
        (some "info")) ∧
    (∀ ps bid cid, CompareGetOutcome.errorPage
        "comparison yielded 0 benchmark results" (some "info") ≠
      CompareGetOutcome.page ps bid cid) :=
  C8_empty_comparison_distinct emptyResolver "a...b" "a" "b" (by decide) rfl

/-- C9 (confirmed): in the comparison flow's output, an entry carries a
compare link exactly when both the baseline and the contender side are
present; a one-sided entry always carries a null link. -/
theorem C9_compare_url_iff_both_sides
    (gc : String → String → List ComparisonEntry × Option String)
    (b c : String) (cs : List ComparisonEntry)
    (h : Compare_compare gc b c = (cs, none)) :
    ∀ e ∈ cs,
      (((e.compare_benchmarks_url).isSome ↔
        ((e.baseline).isSome = true ∧ (e.contender).isSome = true))) ∧
      ((e.baseline = none ∨ e.contender = none) →
        e.compare_benchmarks_url = none) := by
  intro e he
  have hcs : ∃ cs0 : List ComparisonEntry, cs = cs0.map setCompareUrl := by
    unfold Compare_compare at h
    cases hg : gc b c with
    | mk cs0 errmsg =>
      rw [hg] at h
      cases errmsg with
      | none =>
        dsimp only at h
        exact ⟨cs0, (congrArg Prod.fst h).symm⟩
      | some em =>
        dsimp only at h
        by_cases hem : em = ""
        · rw [if_pos hem] at h
          exact ⟨cs0, (congrArg Prod.fst h).symm⟩
        · rw [if_neg hem] at h
          have h2 := congrArg Prod.snd h
          simp at h2
  obtain ⟨cs0, hcs0⟩ := hcs
  rw [hcs0] at he
  obtain ⟨a, _, hea⟩ := List.mem_map.mp he
  rw [← hea]
  cases hb : a.baseline with
  | none =>
    cases hc : a.contender with
    | none => simp [setCompareUrl, hb, hc]
    | some k => simp [setCompareUrl, hb, hc]
  | some bb =>
    cases hc : a.contender with
    | none => simp [setCompareUrl, hb, hc]
    | some k => simp [setCompareUrl, hb, hc]

/-- Witness for C9: applying the theorem to a resolver that returns one
full and one one-sided entry, at the one-sided entry. -/
theorem C9_compare_url_iff_both_sides_witness :
    ((((setCompareUrl entryOneSided).compare_benchmarks_url).isSome ↔
      (((setCompareUrl entryOneSided).baseline).isSome = true ∧
       ((setCompareUrl entryOneSided).contender).isSome = true))) ∧
    (((setCompareUrl entryOneSided).baseline = none ∨
      (setCompareUrl entryOneSided).contender = none) →
      (setCompareUrl entryOneSided).compare_benchmarks_url = none) :=
  C9_compare_url_iff_both_sides twoEntryResolver "x" "y"
    ([entryBoth, entryOneSided].map setCompareUrl) rfl
    (setCompareUrl entryOneSided) (by decide)
